import Mathlib

/-!
# Verification of the ECB exchange-rate sensors

A shallow embedding of the two sensor variants of this repository,

* src/custom_components/exchange_rates/sensor.py (namespace exchange_rates),
* src/custom_components/ecb_exrates/sensor.py (namespace ecb_exrates),

together with proofs about their refresh logic (async_update) and the
state property.

Numbers are modelled by ℚ (the feed carries short decimal strings, all
exactly representable).  An XML document is abstracted by the results of
the only two queries the code performs on it; attribute access and the
control flow of async_update are translated directly from the Python
source.  A Python statement that raises is modelled by the branch the
raised exception actually reaches (the enclosing except handler).
-/

set_option autoImplicit false

/-- One per-currency leaf element (a third-level Cube of the feed): its two
optional string attributes, as read by cube.attrib.get in both variants. -/
structure Leaf where
  currency : Option String
  rate : Option String
  deriving DecidableEq

/-- A well-formed XML document, abstracted by the two queries performed on
it: deepLeaves is the element list matched by the exchange_rates variant's
findall of the three-level Cube nesting; cubeTime is the ecb_exrates
variant's find of a Cube element with a time attribute, namely none when no
such element exists and otherwise the list of that element's direct Cube
children. -/
structure Doc where
  deepLeaves : List Leaf
  cubeTime : Option (List Leaf)
  deriving DecidableEq

/-- The body text handed to ET.fromstring: either it raises ParseError
(malformed XML) or it parses into a document. -/
inductive Content where
  | malformed : Content
  | parsed : Doc → Content
  deriving DecidableEq

/-- Outcome of the HTTP GET as observed inside the try block: either an
awaited aiohttp call raises (network error), or a response arrives with a
status code and a body. -/
inductive HttpResult where
  | netError : HttpResult
  | response : Nat → Content → HttpResult
  deriving DecidableEq

/-- The rates dict.  An assignment rates[k] = v is modelled by consing
(k, v) to the front, so lookupRate sees exactly Python's
overwrite-on-assignment semantics. -/
abbrev RateTable := List (String × ℚ)

/-- Dictionary lookup: the most recent binding of the key, if any.  Models
both membership (k in rates, via isSome) and subscripting (rates[k]). -/
def lookupRate (m : RateTable) (k : String) : Option ℚ :=
  (m.find? (fun p => p.1 == k)).map (fun p => p.2)

/-- The initial dict literal of both variants: rates with EUR seeded at 1.0. -/
def ratesSeed : RateTable := [("EUR", 1)]

/-- Numeric value of a list of decimal digit characters. -/
def natOfDigits (cs : List Char) : ℕ :=
  cs.foldl (fun n c => 10 * n + (c.toNat - 48)) 0

/-- Model of Python float() on the decimal literals the feed carries: after
an optional sign, digits with an optional fractional part, at least one
digit in all ("1", "1.10", ".5", "1." are accepted; "", ".", "abc" are
rejected with ValueError, i.e. none).  Exponent, infinity and nan forms of
the full float() grammar do not occur in the feed and are rejected here. -/
def parseFloatCore (cs : List Char) : Option ℚ :=
  let intPart := cs.takeWhile (fun c => c.isDigit)
  let rest := cs.dropWhile (fun c => c.isDigit)
  match rest with
  | [] => if intPart.isEmpty then none else some (natOfDigits intPart)
  | '.' :: frac =>
      if frac.all (fun c => c.isDigit) && (!intPart.isEmpty || !frac.isEmpty) then
        some ((natOfDigits intPart : ℚ) + (natOfDigits frac : ℚ) / 10 ^ frac.length)
      else none
  | _ => none

/-- Model of Python float() on a rate attribute string (see parseFloatCore). -/
def parseFloat? (s : String) : Option ℚ :=
  match s.toList with
  | '-' :: cs => (parseFloatCore cs).map (fun v => -v)
  | '+' :: cs => parseFloatCore cs
  | cs => parseFloatCore cs

/-- Model of Python str.split with a one-character separator: split at every
occurrence of the separator, keeping empty components.  The inner [] case is
unreachable (the function never returns an empty list). -/
def pySplit (sep : Char) : List Char → List (List Char)
  | [] => [[]]
  | c :: rest =>
    match pySplit sep rest with
    | h :: t => if c = sep then [] :: h :: t else (c :: h) :: t
    | [] => [[c]]

/-- The expression currency_pair.split with separator "/" of both variants. -/
def pairSplit (s : String) : List String :=
  (pySplit '/' s.toList).map (fun cs => ⟨cs⟩)

/-- Nearest integer, ties to even: the rounding mode of Python round(). -/
def roundHalfEven (x : ℚ) : ℤ :=
  let f := x.floor
  let r := x - (f : ℚ)
  if r < 1 / 2 then f
  else if 1 / 2 < r then f + 1
  else if f % 2 = 0 then f else f + 1

/-- Model of Python round(x, n): round to n decimal digits, ties to even. -/
def pyRound (x : ℚ) (n : ℕ) : ℚ :=
  (roundHalfEven (x * 10 ^ n) : ℚ) / 10 ^ n

/-- The loop guard (if currency and rate, Python truthiness on optional
strings) succeeds but float() raises ValueError on the rate attribute. -/
def leafBadRate (l : Leaf) : Bool :=
  match l.currency, l.rate with
  | some c, some r => !c.isEmpty && !r.isEmpty && (parseFloat? r).isNone
  | _, _ => false

namespace exchange_rates

/-- The mutable attributes of ECBExchangeRateSensor set in init of the
exchange_rates variant.  The fields update_interval and hass are
configuration handles never read by the refresh logic and are omitted;
stateVar is the never-touched attribute named by a single underscore and
"state" in the source. -/
structure Sensor where
  currency_pair : String
  precision : ℕ
  rate : ℚ
  name : String
  unique_id : String
  stateVar : Option ℚ
  available : Bool
  deriving DecidableEq

/-- The constructor of the exchange_rates sensor: rate starts at 1.0,
available at True, the formatted name and unique id are derived from the
configured pair string. -/
def init (currency_pair : String) (precision : ℕ) : Sensor :=
  { currency_pair := currency_pair
    precision := precision
    rate := 1
    name := "Exchange Rate " ++ currency_pair
    unique_id := "ecb_" ++ currency_pair.replace "/" "_"
    stateVar := none
    available := true }

/-- The state property: round the stored rate to the configured precision. -/
def Sensor.state (s : Sensor) : ℚ :=
  pyRound s.rate s.precision

/-- One iteration of the leaf loop: under the guard (currency and rate), a
leaf whose rate parses is assigned into the dict; a ValueError from float()
is caught inside the loop, logged and skipped. -/
def addLeaf (m : RateTable) (l : Leaf) : RateTable :=
  match l.currency, l.rate with
  | some c, some r =>
      if c.isEmpty || r.isEmpty then m
      else
        match parseFloat? r with
        | some v => (c, v) :: m
        | none => m
  | _, _ => m

/-- The whole leaf loop over the findall result, starting from the seeded
dict. -/
def buildRates (leaves : List Leaf) : RateTable :=
  leaves.foldl addLeaf ratesSeed

/-- The pair-valuation tail of async_update: unpack the configured pair
(raising ValueError into the outer handler when the split is not a pair),
then either store the quotient and become available, or reset the rate to
1.0 and become unavailable.  A zero quote rate raises ZeroDivisionError,
reaching the outer handler before the rate is assigned. -/
def pairValue (s : Sensor) (rates : RateTable) : Sensor :=
  match pairSplit s.currency_pair with
  | [base, quote] =>
      match lookupRate rates base, lookupRate rates quote with
      | some rb, some rq =>
          if rq = 0 then { s with available := false }
          else { s with rate := rb / rq, available := true }
      | _, _ => { s with rate := 1, available := false }
  | _ => { s with available := false }

/-- The body of async_update for a successfully fetched and parsed
document: build the table from the deep Cube leaves, then valuate the pair. -/
def applyDoc (s : Sensor) (doc : Doc) : Sensor :=
  pairValue s (buildRates doc.deepLeaves)

/-- async_update of the exchange_rates variant.  A network error or a
ParseError from fromstring reaches the except handler, which only clears
the availability flag; a non-200 status clears it and returns early. -/
def async_update (s : Sensor) (h : HttpResult) : Sensor :=
  match h with
  | .netError => { s with available := false }
  | .response status content =>
    if status = 200 then
      match content with
      | .malformed => { s with available := false }
      | .parsed doc => applyDoc s doc
    else { s with available := false }

/-- Whether the call emits at least one warning-level log line: the variant
warns per skipped leaf and when the configured pair is not found; status
failures and caught exceptions log at error level, not warning. -/
def warns (s : Sensor) (h : HttpResult) : Bool :=
  match h with
  | .netError => false
  | .response status content =>
    if status = 200 then
      match content with
      | .malformed => false
      | .parsed doc =>
          let rates := buildRates doc.deepLeaves
          doc.deepLeaves.any leafBadRate ||
            (match pairSplit s.currency_pair with
             | [base, quote] =>
                 !((lookupRate rates base).isSome && (lookupRate rates quote).isSome)
             | _ => false)
    else false

end exchange_rates

namespace ecb_exrates

/-- The mutable attributes of ECBExchangeRateSensor set in init of the
ecb_exrates variant.  update_interval and hass are omitted as above;
lastUpdated models the never-touched attribute initialised to None. -/
structure Sensor where
  currency_pair : String
  precision : ℕ
  rate : ℚ
  name : String
  unique_id : String
  stateVar : Option ℚ
  lastUpdated : Option Unit
  deriving DecidableEq

/-- The constructor of the ecb_exrates sensor. -/
def init (currency_pair : String) (precision : ℕ) : Sensor :=
  { currency_pair := currency_pair
    precision := precision
    rate := 1
    name := "Exchange Rate " ++ currency_pair
    unique_id := "ecb_" ++ currency_pair.replace "/" "_"
    stateVar := none
    lastUpdated := none }

/-- The state property: round the stored rate to the configured precision. -/
def Sensor.state (s : Sensor) : ℚ :=
  pyRound s.rate s.precision

/-- Availability of the ecb_exrates sensor.  The class overrides no
available property, so the host's Entity base class default applies and the
entity is reported available unconditionally. -/
def available (_ : Sensor) : Bool :=
  true

/-- One iteration of the leaf loop: same guard as the other variant, but
float() is not wrapped in try, so a non-numeric rate raises ValueError out
of the loop (modelled by none). -/
def addLeaf (m : RateTable) (l : Leaf) : Option RateTable :=
  match l.currency, l.rate with
  | some c, some r =>
      if c.isEmpty || r.isEmpty then some m
      else
        match parseFloat? r with
        | some v => some ((c, v) :: m)
        | none => none
  | _, _ => some m

/-- The whole leaf loop, starting from the seeded dict; none when some
iteration raised. -/
def buildRates (leaves : List Leaf) : Option RateTable :=
  leaves.foldlM addLeaf ratesSeed

/-- The leaves the loop ranges over: the children of the Cube element with
a time attribute, or no iterations at all when that element is absent (the
warning branch). -/
def docLeaves (doc : Doc) : List Leaf :=
  match doc.cubeTime with
  | some leaves => leaves
  | none => []

/-- The pair-valuation tail of async_update: the split is guarded by a
length check, so a malformed pair string just resets the rate to 1.0; a
zero quote rate raises ZeroDivisionError, reaching the outer handler
before the rate is assigned. -/
def pairValue (t : Sensor) (rates : RateTable) : Sensor :=
  match pairSplit t.currency_pair with
  | [base, quote] =>
      match lookupRate rates base, lookupRate rates quote with
      | some rb, some rq =>
          if rq = 0 then t
          else { t with rate := rb / rq }
      | _, _ => { t with rate := 1 }
  | _ => { t with rate := 1 }

/-- The body of async_update for a successfully fetched and parsed
document: build the table from the Cube children and valuate the pair; a
ValueError raised by float() aborts the whole body, reaching the except
handler, which only logs. -/
def applyDoc (t : Sensor) (doc : Doc) : Sensor :=
  match buildRates (docLeaves doc) with
  | none => t
  | some rates => pairValue t rates

/-- async_update of the ecb_exrates variant.  The response text is awaited
before the status check, so a failure there is a network error; a non-200
status returns early without touching any attribute; the except handler
only logs. -/
def async_update (t : Sensor) (h : HttpResult) : Sensor :=
  match h with
  | .netError => t
  | .response status content =>
    if status = 200 then
      match content with
      | .malformed => t
      | .parsed doc => applyDoc t doc
    else t

/-- Whether the call emits at least one warning-level log line: the variant
warns when no Cube element with a time attribute exists and when the pair
check fails (including a malformed pair string); a ValueError from float()
aborts before any warning. -/
def warns (t : Sensor) (h : HttpResult) : Bool :=
  match h with
  | .netError => false
  | .response status content =>
    if status = 200 then
      match content with
      | .malformed => false
      | .parsed doc =>
        match doc.cubeTime with
        | none => true
        | some leaves =>
          match buildRates leaves with
          | none => false
          | some rates =>
            match pairSplit t.currency_pair with
            | [base, quote] =>
                !((lookupRate rates base).isSome && (lookupRate rates quote).isSome)
            | _ => true
    else false

end ecb_exrates

/-! Concrete feed fragments used to instantiate the theorems below; the
leaves mirror the worked example of the specification. -/

/-- A USD leaf with rate string "1.10". -/
def usdLeaf : Leaf := ⟨some "USD", some "1.10"⟩

/-- A JPY leaf with rate string "160.0". -/
def jpyLeaf : Leaf := ⟨some "JPY", some "160.0"⟩

/-- A leaf whose rate attribute is not numeric. -/
def gbpBadLeaf : Leaf := ⟨some "GBP", some "abc"⟩

/-- A leaf that reports a rate for EUR itself. -/
def eurLeaf : Leaf := ⟨some "EUR", some "2.0"⟩

/-- The parsed value of "1.10", in the exact shape produced by parseFloat?. -/
def usdVal : ℚ := (natOfDigits ['1'] : ℚ) + (natOfDigits ['1', '0'] : ℚ) / 10 ^ 2

/-- The parsed value of "160.0", in the exact shape produced by parseFloat?. -/
def jpyVal : ℚ := (natOfDigits ['1', '6', '0'] : ℚ) + (natOfDigits ['0'] : ℚ) / 10 ^ 1

/-- The parsed value of "2.0", in the exact shape produced by parseFloat?. -/
def eurVal : ℚ := (natOfDigits ['2'] : ℚ) + (natOfDigits ['0'] : ℚ) / 10 ^ 1

/-- The specification's example feed, as seen by both variants. -/
def feedDoc : Doc := ⟨[usdLeaf, jpyLeaf], some [usdLeaf, jpyLeaf]⟩

/-- A well-formed document with the expected nested structure entirely
absent: no deep Cube leaf and no Cube element with a time attribute. -/
def emptyDoc : Doc := ⟨[], none⟩

/-- A feed with one non-numeric leaf before a good one. -/
def mixedDoc : Doc := ⟨[gbpBadLeaf, usdLeaf], some [gbpBadLeaf, usdLeaf]⟩

/-- A feed containing a leaf for EUR itself. -/
def eurDoc : Doc := ⟨[eurLeaf], some [eurLeaf]⟩

/-- The table the ecb_exrates loop builds from the example feed. -/
def feedTable : RateTable := ("JPY", jpyVal) :: ("USD", usdVal) :: ratesSeed

/-- The table the ecb_exrates loop builds from the single USD leaf. -/
def usdTable : RateTable := ("USD", usdVal) :: ratesSeed

/-! ## Helper lemmas -/

theorem lookupRate_cons (c : String) (v : ℚ) (m : RateTable) (k : String) :
    lookupRate ((c, v) :: m) k = if c = k then some v else lookupRate m k := by
  by_cases h : c = k
  · simp [lookupRate, List.find?, h]
  · have hb : (c == k) = false := beq_eq_false_iff_ne.mpr h
    simp [lookupRate, List.find?, h, hb]

theorem lookupRate_seed (k : String) :
    lookupRate ratesSeed k = if "EUR" = k then some 1 else none := by
  by_cases h : "EUR" = k
  · simp [lookupRate, ratesSeed, List.find?, h]
  · have hb : ("EUR" == k) = false := beq_eq_false_iff_ne.mpr h
    simp [lookupRate, ratesSeed, List.find?, h, hb]

theorem er_pairValue_found {s : exchange_rates.Sensor} {rates : RateTable}
    {b q : String} {rb rq : ℚ}
    (hs : pairSplit s.currency_pair = [b, q])
    (hb : lookupRate rates b = some rb) (hq : lookupRate rates q = some rq)
    (h0 : rq ≠ 0) :
    exchange_rates.pairValue s rates = { s with rate := rb / rq, available := true } := by
  simp [exchange_rates.pairValue, hs, hb, hq, h0]

theorem er_pairValue_zero {s : exchange_rates.Sensor} {rates : RateTable}
    {b q : String} {rb rq : ℚ}
    (hs : pairSplit s.currency_pair = [b, q])
    (hb : lookupRate rates b = some rb) (hq : lookupRate rates q = some rq)
    (h0 : rq = 0) :
    exchange_rates.pairValue s rates = { s with available := false } := by
  simp [exchange_rates.pairValue, hs, hb, hq, h0]

theorem er_pairValue_missing {s : exchange_rates.Sensor} {rates : RateTable}
    {b q : String}
    (hs : pairSplit s.currency_pair = [b, q])
    (hmiss : lookupRate rates b = none ∨ lookupRate rates q = none) :
    exchange_rates.pairValue s rates = { s with rate := 1, available := false } := by
  rcases hmiss with h | h
  · cases hq : lookupRate rates q <;> simp [exchange_rates.pairValue, hs, h, hq]
  · cases hb : lookupRate rates b <;> simp [exchange_rates.pairValue, hs, h, hb]

theorem er_pairValue_badSplit {s : exchange_rates.Sensor} {rates : RateTable}
    {l : List String}
    (hs : pairSplit s.currency_pair = l) (hl : l.length ≠ 2) :
    exchange_rates.pairValue s rates = { s with available := false } := by
  rcases l with _ | ⟨a, _ | ⟨b, _ | ⟨c, r⟩⟩⟩
  · simp [exchange_rates.pairValue, hs]
  · simp [exchange_rates.pairValue, hs]
  · exact absurd rfl hl
  · simp [exchange_rates.pairValue, hs]

theorem er_pairValue_idem (s : exchange_rates.Sensor) (rates : RateTable) :
    exchange_rates.pairValue (exchange_rates.pairValue s rates) rates
      = exchange_rates.pairValue s rates := by
  rcases hsp : pairSplit s.currency_pair with _ | ⟨b, _ | ⟨q, _ | ⟨c, r⟩⟩⟩
  · rw [er_pairValue_badSplit hsp (by simp)]
    exact er_pairValue_badSplit hsp (by simp)
  · rw [er_pairValue_badSplit hsp (by simp)]
    exact er_pairValue_badSplit hsp (by simp)
  · rcases hb : lookupRate rates b with _ | rb
    · rw [er_pairValue_missing hsp (Or.inl hb)]
      exact er_pairValue_missing hsp (Or.inl hb)
    · rcases hq : lookupRate rates q with _ | rq
      · rw [er_pairValue_missing hsp (Or.inr hq)]
        exact er_pairValue_missing hsp (Or.inr hq)
      · by_cases h0 : rq = 0
        · rw [er_pairValue_zero hsp hb hq h0]
          exact er_pairValue_zero hsp hb hq h0
        · rw [er_pairValue_found hsp hb hq h0]
          exact er_pairValue_found hsp hb hq h0
  · rw [er_pairValue_badSplit hsp (by simp)]
    exact er_pairValue_badSplit hsp (by simp)

theorem er_update_idem (s : exchange_rates.Sensor) (h : HttpResult) :
    exchange_rates.async_update (exchange_rates.async_update s h) h
      = exchange_rates.async_update s h := by
  cases h with
  | netError => rfl
  | response st c =>
    by_cases hst : st = 200
    · subst hst
      cases c with
      | malformed => simp [exchange_rates.async_update]
      | parsed doc =>
        simp only [exchange_rates.async_update, if_pos rfl]
        exact er_pairValue_idem s (exchange_rates.buildRates doc.deepLeaves)
    · simp [exchange_rates.async_update, hst]

theorem ecb_pairValue_found {t : ecb_exrates.Sensor} {rates : RateTable}
    {b q : String} {rb rq : ℚ}
    (hs : pairSplit t.currency_pair = [b, q])
    (hb : lookupRate rates b = some rb) (hq : lookupRate rates q = some rq)
    (h0 : rq ≠ 0) :
    ecb_exrates.pairValue t rates = { t with rate := rb / rq } := by
  simp [ecb_exrates.pairValue, hs, hb, hq, h0]

theorem ecb_pairValue_zero {t : ecb_exrates.Sensor} {rates : RateTable}
    {b q : String} {rb rq : ℚ}
    (hs : pairSplit t.currency_pair = [b, q])
    (hb : lookupRate rates b = some rb) (hq : lookupRate rates q = some rq)
    (h0 : rq = 0) :
    ecb_exrates.pairValue t rates = t := by
  simp [ecb_exrates.pairValue, hs, hb, hq, h0]

theorem ecb_pairValue_missing {t : ecb_exrates.Sensor} {rates : RateTable}
    {b q : String}
    (hs : pairSplit t.currency_pair = [b, q])
    (hmiss : lookupRate rates b = none ∨ lookupRate rates q = none) :
    ecb_exrates.pairValue t rates = { t with rate := 1 } := by
  rcases hmiss with h | h
  · cases hq : lookupRate rates q <;> simp [ecb_exrates.pairValue, hs, h, hq]
  · cases hb : lookupRate rates b <;> simp [ecb_exrates.pairValue, hs, h, hb]

theorem ecb_pairValue_badSplit {t : ecb_exrates.Sensor} {rates : RateTable}
    {l : List String}
    (hs : pairSplit t.currency_pair = l) (hl : l.length ≠ 2) :
    ecb_exrates.pairValue t rates = { t with rate := 1 } := by
  rcases l with _ | ⟨a, _ | ⟨b, _ | ⟨c, r⟩⟩⟩
  · simp [ecb_exrates.pairValue, hs]
  · simp [ecb_exrates.pairValue, hs]
  · exact absurd rfl hl
  · simp [ecb_exrates.pairValue, hs]

theorem ecb_pairValue_idem (t : ecb_exrates.Sensor) (rates : RateTable) :
    ecb_exrates.pairValue (ecb_exrates.pairValue t rates) rates
      = ecb_exrates.pairValue t rates := by
  rcases hsp : pairSplit t.currency_pair with _ | ⟨b, _ | ⟨q, _ | ⟨c, r⟩⟩⟩
  · rw [ecb_pairValue_badSplit hsp (by simp)]
    exact ecb_pairValue_badSplit hsp (by simp)
  · rw [ecb_pairValue_badSplit hsp (by simp)]
    exact ecb_pairValue_badSplit hsp (by simp)
  · rcases hb : lookupRate rates b with _ | rb
    · rw [ecb_pairValue_missing hsp (Or.inl hb)]
      exact ecb_pairValue_missing hsp (Or.inl hb)
    · rcases hq : lookupRate rates q with _ | rq
      · rw [ecb_pairValue_missing hsp (Or.inr hq)]
        exact ecb_pairValue_missing hsp (Or.inr hq)
      · by_cases h0 : rq = 0
        · rw [ecb_pairValue_zero hsp hb hq h0]
          exact ecb_pairValue_zero hsp hb hq h0
        · rw [ecb_pairValue_found hsp hb hq h0]
          exact ecb_pairValue_found hsp hb hq h0
  · rw [ecb_pairValue_badSplit hsp (by simp)]
    exact ecb_pairValue_badSplit hsp (by simp)

theorem ecb_applyDoc_idem (t : ecb_exrates.Sensor) (doc : Doc) :
    ecb_exrates.applyDoc (ecb_exrates.applyDoc t doc) doc
      = ecb_exrates.applyDoc t doc := by
  unfold ecb_exrates.applyDoc
  cases hb : ecb_exrates.buildRates (ecb_exrates.docLeaves doc) with
  | none => simp
  | some rates =>
    simp only
    exact ecb_pairValue_idem t rates

theorem ecb_update_idem (t : ecb_exrates.Sensor) (h : HttpResult) :
    ecb_exrates.async_update (ecb_exrates.async_update t h) h
      = ecb_exrates.async_update t h := by
  cases h with
  | netError => rfl
  | response st c =>
    by_cases hst : st = 200
    · subst hst
      cases c with
      | malformed => simp [ecb_exrates.async_update]
      | parsed doc =>
        simp only [ecb_exrates.async_update, if_pos rfl]
        exact ecb_applyDoc_idem t doc
    · simp [ecb_exrates.async_update, hst]

theorem er_addLeaf_isSome (m : RateTable) (k : String) (l : Leaf)
    (h : (lookupRate m k).isSome = true) :
    (lookupRate (exchange_rates.addLeaf m l) k).isSome = true := by
  cases hc : l.currency with
  | none => simpa [exchange_rates.addLeaf, hc] using h
  | some c =>
    cases hr : l.rate with
    | none => simpa [exchange_rates.addLeaf, hc, hr] using h
    | some r =>
      by_cases hg : (c.isEmpty || r.isEmpty) = true
      · simpa [exchange_rates.addLeaf, hc, hr, hg] using h
      · cases hp : parseFloat? r with
        | none => simpa [exchange_rates.addLeaf, hc, hr, hg, hp] using h
        | some v =>
          have he : exchange_rates.addLeaf m l = (c, v) :: m := by
            simp [exchange_rates.addLeaf, hc, hr, hg, hp]
          rw [he, lookupRate_cons]
          by_cases hck : c = k <;> simp [hck, h]

theorem er_addLeaf_other (m : RateTable) (k : String) (l : Leaf)
    (hne : l.currency ≠ some k) :
    lookupRate (exchange_rates.addLeaf m l) k = lookupRate m k := by
  cases hc : l.currency with
  | none => simp [exchange_rates.addLeaf, hc]
  | some c =>
    cases hr : l.rate with
    | none => simp [exchange_rates.addLeaf, hc, hr]
    | some r =>
      by_cases hg : (c.isEmpty || r.isEmpty) = true
      · simp [exchange_rates.addLeaf, hc, hr, hg]
      · cases hp : parseFloat? r with
        | none => simp [exchange_rates.addLeaf, hc, hr, hg, hp]
        | some v =>
          have he : exchange_rates.addLeaf m l = (c, v) :: m := by
            simp [exchange_rates.addLeaf, hc, hr, hg, hp]
          rw [he, lookupRate_cons]
          rw [hc] at hne
          simp only [ne_eq, Option.some.injEq] at hne
          rw [if_neg hne]

theorem er_foldl_isSome (k : String) (leaves : List Leaf) :
    ∀ m : RateTable, (lookupRate m k).isSome = true →
      (lookupRate (leaves.foldl exchange_rates.addLeaf m) k).isSome = true := by
  induction leaves with
  | nil => intro m h; simpa using h
  | cons l ls ih =>
    intro m h
    simp only [List.foldl_cons]
    exact ih _ (er_addLeaf_isSome m k l h)

theorem er_foldl_other (k : String) (leaves : List Leaf)
    (hne : ∀ l ∈ leaves, l.currency ≠ some k) :
    ∀ m : RateTable, lookupRate (leaves.foldl exchange_rates.addLeaf m) k = lookupRate m k := by
  induction leaves with
  | nil => intro m; simp
  | cons l ls ih =>
    intro m
    simp only [List.foldl_cons]
    rw [ih (fun x hx => hne x (List.mem_cons_of_mem l hx)) _,
      er_addLeaf_other m k l (hne l (List.mem_cons_self l ls))]

theorem ecb_addLeaf_isSome (m m2 : RateTable) (k : String) (l : Leaf)
    (h2 : ecb_exrates.addLeaf m l = some m2)
    (h : (lookupRate m k).isSome = true) :
    (lookupRate m2 k).isSome = true := by
  unfold ecb_exrates.addLeaf at h2
  cases hc : l.currency with
  | none => rw [hc] at h2; simp at h2; rw [← h2]; exact h
  | some c =>
    cases hr : l.rate with
    | none => rw [hc, hr] at h2; simp at h2; rw [← h2]; exact h
    | some r =>
      rw [hc, hr] at h2
      by_cases hg : c.isEmpty || r.isEmpty
      · simp [hg] at h2; rw [← h2]; exact h
      · cases hp : parseFloat? r with
        | none => simp [hg, hp] at h2
        | some v =>
          simp [hg, hp] at h2
          rw [← h2, lookupRate_cons]
          by_cases hck : c = k <;> simp [hck, h]

theorem ecb_addLeaf_other (m m2 : RateTable) (k : String) (l : Leaf)
    (h2 : ecb_exrates.addLeaf m l = some m2)
    (hne : l.currency ≠ some k) :
    lookupRate m2 k = lookupRate m k := by
  unfold ecb_exrates.addLeaf at h2
  cases hc : l.currency with
  | none => rw [hc] at h2; simp at h2; rw [← h2]
  | some c =>
    cases hr : l.rate with
    | none => rw [hc, hr] at h2; simp at h2; rw [← h2]
    | some r =>
      rw [hc, hr] at h2
      by_cases hg : c.isEmpty || r.isEmpty
      · simp [hg] at h2; rw [← h2]
      · cases hp : parseFloat? r with
        | none => simp [hg, hp] at h2
        | some v =>
          simp [hg, hp] at h2
          rw [← h2, lookupRate_cons]
          rw [hc] at hne
          simp only [ne_eq, Option.some.injEq] at hne
          rw [if_neg hne]

theorem ecb_foldlM_isSome (k : String) (leaves : List Leaf) :
    ∀ m m2 : RateTable, leaves.foldlM ecb_exrates.addLeaf m = some m2 →
      (lookupRate m k).isSome = true → (lookupRate m2 k).isSome = true := by
  induction leaves with
  | nil =>
    intro m m2 hf h
    simp only [List.foldlM] at hf
    cases hf
    exact h
  | cons l ls ih =>
    intro m m2 hf h
    rw [List.foldlM_cons] at hf
    cases ha : ecb_exrates.addLeaf m l with
    | none => rw [ha] at hf; simp at hf
    | some m1 =>
      rw [ha] at hf
      simp at hf
      exact ih m1 m2 hf (ecb_addLeaf_isSome m m1 k l ha h)

theorem ecb_foldlM_other (k : String) (leaves : List Leaf)
    (hne : ∀ l ∈ leaves, l.currency ≠ some k) :
    ∀ m m2 : RateTable, leaves.foldlM ecb_exrates.addLeaf m = some m2 →
      lookupRate m2 k = lookupRate m k := by
  induction leaves with
  | nil =>
    intro m m2 hf
    simp only [List.foldlM] at hf
    cases hf
    rfl
  | cons l ls ih =>
    intro m m2 hf
    rw [List.foldlM_cons] at hf
    cases ha : ecb_exrates.addLeaf m l with
    | none => rw [ha] at hf; simp at hf
    | some m1 =>
      rw [ha] at hf
      simp at hf
      rw [ih (fun x hx => hne x (List.mem_cons_of_mem l hx)) m1 m2 hf,
        ecb_addLeaf_other m m1 k l ha (hne l (List.mem_cons_self l ls))]

theorem er_addLeaf_bad (m : RateTable) (l : Leaf) (hb : leafBadRate l = true) :
    exchange_rates.addLeaf m l = m := by
  cases hc : l.currency with
  | none => simp [exchange_rates.addLeaf, hc]
  | some c =>
    cases hr : l.rate with
    | none => simp [exchange_rates.addLeaf, hc, hr]
    | some r =>
      simp only [leafBadRate, hc, hr, Bool.and_eq_true, Bool.not_eq_true',
        Option.isNone_iff_eq_none] at hb
      simp [exchange_rates.addLeaf, hc, hr, hb.1.1, hb.1.2, hb.2]

theorem ecb_addLeaf_bad (m : RateTable) (l : Leaf) (hb : leafBadRate l = true) :
    ecb_exrates.addLeaf m l = none := by
  cases hc : l.currency with
  | none => simp [leafBadRate, hc] at hb
  | some c =>
    cases hr : l.rate with
    | none => simp [leafBadRate, hc, hr] at hb
    | some r =>
      simp only [leafBadRate, hc, hr, Bool.and_eq_true, Bool.not_eq_true',
        Option.isNone_iff_eq_none] at hb
      simp [ecb_exrates.addLeaf, hc, hr, hb.1.1, hb.1.2, hb.2]

theorem ecb_foldlM_bad (l : Leaf) (hb : leafBadRate l = true) (leaves : List Leaf)
    (hmem : l ∈ leaves) :
    ∀ m : RateTable, leaves.foldlM ecb_exrates.addLeaf m = none := by
  induction leaves with
  | nil => cases hmem
  | cons x xs ih =>
    intro m
    rw [List.foldlM_cons]
    rcases List.mem_cons.mp hmem with hx | hx
    · rw [← hx, ecb_addLeaf_bad m l hb]
      rfl
    · cases ha : ecb_exrates.addLeaf m x with
      | none => rfl
      | some m1 => simpa using ih hx m1

/-! ## Claims -/

/-- C1: for a configured pair whose two codes are both present in the parsed
rate table and whose quote rate is nonzero, the refreshed sensor's displayed
state is the quotient base rate over quote rate, rounded to the configured
precision — in both variants. -/
theorem c1_state_is_rounded_quotient
    (s : exchange_rates.Sensor) (t : ecb_exrates.Sensor) (doc : Doc)
    (b q : String) (rb rq rb2 rq2 : ℚ) (m : RateTable)
    (hs : pairSplit s.currency_pair = [b, q])
    (ht : pairSplit t.currency_pair = [b, q])
    (hb : lookupRate (exchange_rates.buildRates doc.deepLeaves) b = some rb)
    (hq : lookupRate (exchange_rates.buildRates doc.deepLeaves) q = some rq)
    (h0 : rq ≠ 0)
    (hm : ecb_exrates.buildRates (ecb_exrates.docLeaves doc) = some m)
    (hb2 : lookupRate m b = some rb2)
    (hq2 : lookupRate m q = some rq2)
    (h02 : rq2 ≠ 0) :
    (exchange_rates.async_update s (.response 200 (.parsed doc))).state
        = pyRound (rb / rq) s.precision ∧
    (ecb_exrates.async_update t (.response 200 (.parsed doc))).state
        = pyRound (rb2 / rq2) t.precision := by
  constructor
  · have h1 : exchange_rates.async_update s (.response 200 (.parsed doc))
        = { s with rate := rb / rq, available := true } :=
      er_pairValue_found hs hb hq h0
    rw [h1]; rfl
  · have h1 : ecb_exrates.async_update t (.response 200 (.parsed doc))
        = { t with rate := rb2 / rq2 } := by
      show ecb_exrates.applyDoc t doc = _
      unfold ecb_exrates.applyDoc
      rw [hm]
      exact ecb_pairValue_found ht hb2 hq2 h02
    rw [h1]; rfl

/-- Witness for C1 at the specification's worked example: pair USD/JPY with
precision 4 against the feed carrying USD 1.10 and JPY 160.0. -/
theorem c1_witness :
    jpyVal ≠ 0 ∧
    (exchange_rates.async_update (exchange_rates.init "USD/JPY" 4)
        (.response 200 (.parsed feedDoc))).state = pyRound (usdVal / jpyVal) 4 ∧
    (ecb_exrates.async_update (ecb_exrates.init "USD/JPY" 4)
        (.response 200 (.parsed feedDoc))).state = pyRound (usdVal / jpyVal) 4 := by
  have hj : jpyVal ≠ 0 := by
    have h1 : natOfDigits ['1', '6', '0'] = 160 := by decide
    have h2 : natOfDigits ['0'] = 0 := by decide
    rw [jpyVal, h1, h2]; norm_num
  obtain ⟨w1, w2⟩ := c1_state_is_rounded_quotient
    (exchange_rates.init "USD/JPY" 4) (ecb_exrates.init "USD/JPY" 4) feedDoc
    "USD" "JPY" usdVal jpyVal usdVal jpyVal feedTable
    (by decide) (by decide) rfl rfl hj rfl rfl rfl hj
  exact ⟨hj, w1, w2⟩

/-- C2 counterexample: a feed leaf carrying currency EUR overrides the
seeded entry, so the built table maps EUR to the leaf's rate 2.0, not 1.0 —
in both variants. -/
theorem c2_counterexample :
    lookupRate (exchange_rates.buildRates eurDoc.deepLeaves) "EUR" ≠ some 1 ∧
    ecb_exrates.buildRates (ecb_exrates.docLeaves eurDoc)
      = some [("EUR", eurVal), ("EUR", 1)] ∧
    lookupRate [("EUR", eurVal), ("EUR", 1)] "EUR" ≠ some 1 := by
  have hv : eurVal ≠ 1 := by
    have h1 : natOfDigits ['2'] = 2 := by decide
    have h2 : natOfDigits ['0'] = 0 := by decide
    rw [eurVal, h1, h2]; norm_num
  have he : lookupRate (exchange_rates.buildRates eurDoc.deepLeaves) "EUR" = some eurVal := rfl
  have he2 : lookupRate [("EUR", eurVal), ("EUR", 1)] "EUR" = some eurVal := rfl
  refine ⟨?_, rfl, ?_⟩
  · rw [he]; simp only [ne_eq, Option.some.injEq]; exact hv
  · rw [he2]; simp only [ne_eq, Option.some.injEq]; exact hv

/-- C2 (amended): the built table always contains a binding for EUR (the
seed is never removed), and that binding is still 1.0 whenever no parsed
leaf carries currency code EUR — in both variants. -/
theorem c2_eur_seed_amended (leaves : List Leaf) (m : RateTable)
    (hm : ecb_exrates.buildRates leaves = some m) :
    (lookupRate (exchange_rates.buildRates leaves) "EUR").isSome = true ∧
    (lookupRate m "EUR").isSome = true ∧
    ((∀ l ∈ leaves, l.currency ≠ some "EUR") →
      lookupRate (exchange_rates.buildRates leaves) "EUR" = some 1 ∧
      lookupRate m "EUR" = some 1) := by
  have hseed : (lookupRate ratesSeed "EUR").isSome = true := by
    rw [lookupRate_seed]; simp
  refine ⟨?_, ?_, ?_⟩
  · exact er_foldl_isSome "EUR" leaves ratesSeed hseed
  · exact ecb_foldlM_isSome "EUR" leaves ratesSeed m hm hseed
  · intro hne
    constructor
    · show lookupRate (leaves.foldl exchange_rates.addLeaf ratesSeed) "EUR" = some 1
      rw [er_foldl_other "EUR" leaves hne ratesSeed, lookupRate_seed]
      simp
    · rw [ecb_foldlM_other "EUR" leaves hne ratesSeed m hm, lookupRate_seed]
      simp

/-- Witness for C2 (amended) on a feed with a single USD leaf. -/
theorem c2_witness :
    lookupRate (exchange_rates.buildRates [usdLeaf]) "EUR" = some 1 ∧
    lookupRate usdTable "EUR" = some 1 :=
  (c2_eur_seed_amended [usdLeaf] usdTable rfl).2.2 (by decide)

/-- C3: a non-200 status leaves the stored rate and hence the displayed
state unchanged in both variants, and the initial default rate is 1.0. -/
theorem c3_non200_keeps_rate
    (s : exchange_rates.Sensor) (t : ecb_exrates.Sensor) (st : Nat)
    (c c2 : Content) (p : String) (n : ℕ) (hst : st ≠ 200) :
    (exchange_rates.async_update s (.response st c)).rate = s.rate ∧
    (exchange_rates.async_update s (.response st c)).state = s.state ∧
    ecb_exrates.async_update t (.response st c2) = t ∧
    (exchange_rates.init p n).rate = 1 ∧
    (ecb_exrates.init p n).rate = 1 := by
  have h1 : exchange_rates.async_update s (.response st c)
      = { s with available := false } := by
    simp [exchange_rates.async_update, hst]
  have h2 : ecb_exrates.async_update t (.response st c2) = t := by
    simp [ecb_exrates.async_update, hst]
  exact ⟨by rw [h1], by rw [h1]; rfl, h2, rfl, rfl⟩

/-- Witness for C3 at status 500 with arbitrary body. -/
theorem c3_witness :
    (500 : Nat) ≠ 200 ∧
    (exchange_rates.async_update (exchange_rates.init "USD/JPY" 4)
        (.response 500 .malformed)).rate = (exchange_rates.init "USD/JPY" 4).rate ∧
    ecb_exrates.async_update (ecb_exrates.init "USD/JPY" 4)
        (.response 500 .malformed) = ecb_exrates.init "USD/JPY" 4 ∧
    (exchange_rates.init "USD/JPY" 4).rate = 1 ∧
    (ecb_exrates.init "USD/JPY" 4).rate = 1 := by
  obtain ⟨w1, w2, w3, w4, w5⟩ := c3_non200_keeps_rate
    (exchange_rates.init "USD/JPY" 4) (ecb_exrates.init "USD/JPY" 4) 500
    .malformed .malformed "USD/JPY" 4 (by decide)
  exact ⟨by decide, w1, w3, w4, w5⟩

/-- C4 counterexample: for the pair XYZ/USD with XYZ absent from the feed,
the ecb_exrates variant resets the rate to 1.0 but its entity is still
reported available — the pair's state does not become Unavailable, so the
claim fails on this variant. -/
theorem c4_counterexample :
    ecb_exrates.available (ecb_exrates.async_update (ecb_exrates.init "XYZ/USD" 4)
        (.response 200 (.parsed feedDoc))) = true ∧
    (ecb_exrates.async_update (ecb_exrates.init "XYZ/USD" 4)
        (.response 200 (.parsed feedDoc))).rate = 1 :=
  ⟨rfl, rfl⟩

/-- C4 (amended): when the base or quote code is absent from the parsed
table, the refresh raises no exception and resets the stored rate to the
default 1.0 in both variants; the exchange_rates variant additionally
becomes unavailable, while the ecb_exrates variant stays available since it
has no availability flag. -/
theorem c4_missing_pair_amended
    (s : exchange_rates.Sensor) (t : ecb_exrates.Sensor) (doc : Doc)
    (b q : String) (m : RateTable)
    (hs : pairSplit s.currency_pair = [b, q])
    (ht : pairSplit t.currency_pair = [b, q])
    (hmiss : lookupRate (exchange_rates.buildRates doc.deepLeaves) b = none ∨
             lookupRate (exchange_rates.buildRates doc.deepLeaves) q = none)
    (hm : ecb_exrates.buildRates (ecb_exrates.docLeaves doc) = some m)
    (hmiss2 : lookupRate m b = none ∨ lookupRate m q = none) :
    exchange_rates.async_update s (.response 200 (.parsed doc))
      = { s with rate := 1, available := false } ∧
    ecb_exrates.async_update t (.response 200 (.parsed doc))
      = { t with rate := 1 } ∧
    ecb_exrates.available (ecb_exrates.async_update t (.response 200 (.parsed doc)))
      = true := by
  refine ⟨er_pairValue_missing hs hmiss, ?_, rfl⟩
  show ecb_exrates.applyDoc t doc = _
  unfold ecb_exrates.applyDoc
  rw [hm]
  exact ecb_pairValue_missing ht hmiss2

/-- Witness for C4 (amended) at the pair XYZ/USD against the example feed. -/
theorem c4_witness :
    exchange_rates.async_update (exchange_rates.init "XYZ/USD" 4)
        (.response 200 (.parsed feedDoc))
      = { exchange_rates.init "XYZ/USD" 4 with rate := 1, available := false } ∧
    ecb_exrates.async_update (ecb_exrates.init "XYZ/USD" 4)
        (.response 200 (.parsed feedDoc))
      = { ecb_exrates.init "XYZ/USD" 4 with rate := 1 } ∧
    ecb_exrates.available (ecb_exrates.async_update (ecb_exrates.init "XYZ/USD" 4)
        (.response 200 (.parsed feedDoc))) = true :=
  c4_missing_pair_amended (exchange_rates.init "XYZ/USD" 4)
    (ecb_exrates.init "XYZ/USD" 4) feedDoc "XYZ" "USD" feedTable
    (by decide) (by decide) (Or.inl rfl) rfl (Or.inl rfl)

/-- C5: a network error or a ParseError from fromstring is caught by the
except handler; the stored rate keeps its pre-call value in the
exchange_rates variant, and the ecb_exrates sensor is left entirely
unchanged. -/
theorem c5_exceptions_keep_rate (s : exchange_rates.Sensor) (t : ecb_exrates.Sensor) :
    (exchange_rates.async_update s .netError).rate = s.rate ∧
    (exchange_rates.async_update s (.response 200 .malformed)).rate = s.rate ∧
    ecb_exrates.async_update t .netError = t ∧
    ecb_exrates.async_update t (.response 200 .malformed) = t :=
  ⟨rfl, rfl, rfl, rfl⟩

/-- C6 counterexample: the ecb_exrates variant wraps no try around float(),
so the feed with leaves GBP "abc" then USD "1.10" aborts the whole parse —
USD is never added to any table and the refresh leaves the sensor
untouched, contradicting that a bad leaf is only skipped. -/
theorem c6_counterexample :
    leafBadRate gbpBadLeaf = true ∧
    ecb_exrates.buildRates (ecb_exrates.docLeaves mixedDoc) = none ∧
    ecb_exrates.async_update (ecb_exrates.init "USD/EUR" 4)
        (.response 200 (.parsed mixedDoc)) = ecb_exrates.init "USD/EUR" 4 :=
  ⟨by decide, rfl, rfl⟩

/-- C6 (amended): in the exchange_rates variant a leaf with a non-numeric
rate is skipped and the remaining leaves still parse (dropping that leaf
changes neither the table nor the refresh outcome); in the ecb_exrates
variant one such leaf raises ValueError, aborting the entire parse, and the
caught exception leaves the sensor unchanged. -/
theorem c6_bad_leaf_amended
    (s : exchange_rates.Sensor) (t : ecb_exrates.Sensor)
    (pre post : List Leaf) (l : Leaf) (ct : Option (List Leaf))
    (doc : Doc) (leaves : List Leaf)
    (hbad : leafBadRate l = true)
    (hdoc : doc.cubeTime = some leaves) (hmem : l ∈ leaves) :
    exchange_rates.buildRates (pre ++ l :: post)
      = exchange_rates.buildRates (pre ++ post) ∧
    exchange_rates.async_update s (.response 200 (.parsed ⟨pre ++ l :: post, ct⟩))
      = exchange_rates.async_update s (.response 200 (.parsed ⟨pre ++ post, ct⟩)) ∧
    ecb_exrates.buildRates (ecb_exrates.docLeaves doc) = none ∧
    ecb_exrates.async_update t (.response 200 (.parsed doc)) = t := by
  have htab : exchange_rates.buildRates (pre ++ l :: post)
      = exchange_rates.buildRates (pre ++ post) := by
    unfold exchange_rates.buildRates
    rw [List.foldl_append, List.foldl_append, List.foldl_cons, er_addLeaf_bad _ l hbad]
  have hnone : ecb_exrates.buildRates (ecb_exrates.docLeaves doc) = none := by
    unfold ecb_exrates.docLeaves
    rw [hdoc]
    exact ecb_foldlM_bad l hbad leaves hmem ratesSeed
  refine ⟨htab, ?_, hnone, ?_⟩
  · show exchange_rates.pairValue s (exchange_rates.buildRates (pre ++ l :: post))
        = exchange_rates.pairValue s (exchange_rates.buildRates (pre ++ post))
    rw [htab]
  · show ecb_exrates.applyDoc t doc = t
    unfold ecb_exrates.applyDoc
    rw [hnone]

/-- Witness for C6 (amended): the bad GBP leaf between USD and JPY leaves
for the exchange_rates part, and the mixed feed for the ecb_exrates part. -/
theorem c6_witness :
    exchange_rates.buildRates ([usdLeaf] ++ gbpBadLeaf :: [jpyLeaf])
      = exchange_rates.buildRates ([usdLeaf] ++ [jpyLeaf]) ∧
    exchange_rates.async_update (exchange_rates.init "USD/JPY" 4)
        (.response 200 (.parsed ⟨[usdLeaf] ++ gbpBadLeaf :: [jpyLeaf], none⟩))
      = exchange_rates.async_update (exchange_rates.init "USD/JPY" 4)
        (.response 200 (.parsed ⟨[usdLeaf] ++ [jpyLeaf], none⟩)) ∧
    ecb_exrates.buildRates (ecb_exrates.docLeaves mixedDoc) = none ∧
    ecb_exrates.async_update (ecb_exrates.init "USD/JPY" 4)
        (.response 200 (.parsed mixedDoc)) = ecb_exrates.init "USD/JPY" 4 :=
  c6_bad_leaf_amended (exchange_rates.init "USD/JPY" 4) (ecb_exrates.init "USD/JPY" 4)
    [usdLeaf] [jpyLeaf] gbpBadLeaf none mixedDoc [gbpBadLeaf, usdLeaf]
    (by decide) rfl (by decide)

/-- C7 counterexample: with the nested structure absent and the pair
EUR/EUR, the exchange_rates refresh succeeds on the seed table but emits no
warning-level log at all, so the claim's warning clause fails on that
variant. -/
theorem c7_counterexample :
    emptyDoc.deepLeaves = [] ∧ emptyDoc.cubeTime = none ∧
    exchange_rates.warns (exchange_rates.init "EUR/EUR" 4)
        (.response 200 (.parsed emptyDoc)) = false ∧
    (exchange_rates.async_update (exchange_rates.init "EUR/EUR" 4)
        (.response 200 (.parsed emptyDoc))).available = true :=
  ⟨rfl, rfl, by decide, rfl⟩

/-- C7 (amended): a well-formed document with the expected nested structure
entirely absent yields a successful refresh over the table reduced to the
EUR seed in both variants (the ecb_exrates sensor ends with rate 1.0), and
the ecb_exrates variant logs a warning; the exchange_rates variant may log
none. -/
theorem c7_absent_structure (t : ecb_exrates.Sensor) (doc : Doc)
    (h1 : doc.deepLeaves = []) (h2 : doc.cubeTime = none) :
    exchange_rates.buildRates doc.deepLeaves = ratesSeed ∧
    ecb_exrates.async_update t (.response 200 (.parsed doc)) = { t with rate := 1 } ∧
    ecb_exrates.warns t (.response 200 (.parsed doc)) = true := by
  refine ⟨by rw [h1]; rfl, ?_, ?_⟩
  · show ecb_exrates.applyDoc t doc = _
    unfold ecb_exrates.applyDoc ecb_exrates.docLeaves
    rw [h2]
    show ecb_exrates.pairValue t ratesSeed = { t with rate := 1 }
    rcases hsp : pairSplit t.currency_pair with _ | ⟨b, _ | ⟨q, _ | ⟨c, r⟩⟩⟩
    · exact ecb_pairValue_badSplit hsp (by simp)
    · exact ecb_pairValue_badSplit hsp (by simp)
    · by_cases hb : "EUR" = b
      · by_cases hq : "EUR" = q
        · have hlb : lookupRate ratesSeed b = some 1 := by rw [lookupRate_seed, if_pos hb]
          have hlq : lookupRate ratesSeed q = some 1 := by rw [lookupRate_seed, if_pos hq]
          rw [ecb_pairValue_found hsp hlb hlq one_ne_zero]
          simp
        · have hlq : lookupRate ratesSeed q = none := by rw [lookupRate_seed, if_neg hq]
          exact ecb_pairValue_missing hsp (Or.inr hlq)
      · have hlb : lookupRate ratesSeed b = none := by rw [lookupRate_seed, if_neg hb]
        exact ecb_pairValue_missing hsp (Or.inl hlb)
    · exact ecb_pairValue_badSplit hsp (by simp)
  · simp [ecb_exrates.warns, h2]

/-- Witness for C7 (amended) at the empty document and pair USD/CZK. -/
theorem c7_witness :
    exchange_rates.buildRates emptyDoc.deepLeaves = ratesSeed ∧
    ecb_exrates.async_update (ecb_exrates.init "USD/CZK" 4)
        (.response 200 (.parsed emptyDoc))
      = { ecb_exrates.init "USD/CZK" 4 with rate := 1 } ∧
    ecb_exrates.warns (ecb_exrates.init "USD/CZK" 4)
        (.response 200 (.parsed emptyDoc)) = true :=
  c7_absent_structure (ecb_exrates.init "USD/CZK" 4) emptyDoc rfl rfl

/-- C8: refresh is idempotent in the feed content — running async_update a
second time on an identical fetch outcome changes nothing, for every prior
sensor state and every outcome, in both variants. -/
theorem c8_refresh_idempotent
    (s : exchange_rates.Sensor) (t : ecb_exrates.Sensor) (h k : HttpResult) :
    exchange_rates.async_update (exchange_rates.async_update s h) h
      = exchange_rates.async_update s h ∧
    ecb_exrates.async_update (ecb_exrates.async_update t k) k
      = ecb_exrates.async_update t k :=
  ⟨er_update_idem s h, ecb_update_idem t k⟩

/-- C9: a configured pair string that does not split into exactly two
components is harmless: the ecb_exrates guard falls back to rate 1.0, and
the exchange_rates tuple unpacking raises into the except handler, which
only marks the sensor unavailable. -/
theorem c9_malformed_pair_safe
    (s : exchange_rates.Sensor) (t : ecb_exrates.Sensor) (doc : Doc) (m : RateTable)
    (hs : (pairSplit s.currency_pair).length ≠ 2)
    (ht : (pairSplit t.currency_pair).length ≠ 2)
    (hm : ecb_exrates.buildRates (ecb_exrates.docLeaves doc) = some m) :
    exchange_rates.async_update s (.response 200 (.parsed doc))
      = { s with available := false } ∧
    ecb_exrates.async_update t (.response 200 (.parsed doc))
      = { t with rate := 1 } := by
  constructor
  · exact er_pairValue_badSplit rfl hs
  · show ecb_exrates.applyDoc t doc = _
    unfold ecb_exrates.applyDoc
    rw [hm]
    exact ecb_pairValue_badSplit rfl ht

/-- Witness for C9 at a separator-free pair and a three-component pair. -/
theorem c9_witness :
    (pairSplit "USDCZK").length ≠ 2 ∧
    (pairSplit "A/B/C").length ≠ 2 ∧
    exchange_rates.async_update (exchange_rates.init "USDCZK" 4)
        (.response 200 (.parsed feedDoc))
      = { exchange_rates.init "USDCZK" 4 with available := false } ∧
    ecb_exrates.async_update (ecb_exrates.init "A/B/C" 4)
        (.response 200 (.parsed feedDoc))
      = { ecb_exrates.init "A/B/C" 4 with rate := 1 } := by
  obtain ⟨w1, w2⟩ := c9_malformed_pair_safe (exchange_rates.init "USDCZK" 4)
    (ecb_exrates.init "A/B/C" 4) feedDoc feedTable (by decide) (by decide) rfl
  exact ⟨by decide, by decide, w1, w2⟩

/-- C10: in the exchange_rates variant a non-200 status only clears the
availability flag; every other field, in particular the stored rate, is
exactly as before the call. -/
theorem c10_non200_only_availability
    (s : exchange_rates.Sensor) (st : Nat) (c : Content) (hst : st ≠ 200) :
    exchange_rates.async_update s (.response st c) = { s with available := false } := by
  simp [exchange_rates.async_update, hst]

/-- Witness for C10 at status 500. -/
theorem c10_witness :
    (500 : Nat) ≠ 200 ∧
    exchange_rates.async_update (exchange_rates.init "USD/JPY" 4)
        (.response 500 .malformed)
      = { exchange_rates.init "USD/JPY" 4 with available := false } :=
  ⟨by decide, c10_non200_only_availability (exchange_rates.init "USD/JPY" 4)
    500 .malformed (by decide)⟩
